import Mathlib

/-!
Verification development for the frozen-core orbital selection engine
(`pyscf/dh/util/frozen_core.py`): a shallow embedding of
`ElementConfiguration`, the `FrozenRuleBase` hierarchy, and `FrozenCore`,
together with theorems settling the specified properties.

Conventions of the embedding:
* machine integers are `Nat`/`Int` (occupation numbers are integral here;
  the source's float-integrality assert is enforced by the types);
* fallible code returns `Except Err`; each Python exception kind that the
  translated code can raise is one constructor of `Err`;
* numpy tables of shape (7, 4) are stored column-major: `t.getD c []` is the
  7-entry column for angular momentum `c`, and `tableGet t r c` is the
  source's `table[r, c]`.
-/

deriving instance DecidableEq for Except

namespace FrozenCore

/-- Python exception kinds raised by the translated code. -/
inductive Err where
  | valueError
  | assertionError
  | typeError
  | indexError
  | keyError
  | zeroDivisionError
  | notImplementedError
deriving DecidableEq, Repr

def MAX_LEVEL : Nat := 7
def MAX_ANG : Nat := 4

/-- Modelled from the spec: the external dependency
`pyscf.data.elements.CONFIGURATION` (not part of this repository), described
by the spec as "a static reference table of all known elements' ground-state
configurations". Entry `Z` is `[s, p, d, f]`: the total electron count in
each angular-momentum type for the neutral ground-state atom of element `Z`
(entry 0 is the ghost atom). Each row sums to `Z`. -/
def CONFIGURATION : List (List Nat) := [
  [0, 0, 0, 0],    -- 0  ghost
  [1, 0, 0, 0],    -- 1  H
  [2, 0, 0, 0],    -- 2  He
  [3, 0, 0, 0],    -- 3  Li
  [4, 0, 0, 0],    -- 4  Be
  [4, 1, 0, 0],    -- 5  B
  [4, 2, 0, 0],    -- 6  C
  [4, 3, 0, 0],    -- 7  N
  [4, 4, 0, 0],    -- 8  O
  [4, 5, 0, 0],    -- 9  F
  [4, 6, 0, 0],    -- 10 Ne
  [5, 6, 0, 0],    -- 11 Na
  [6, 6, 0, 0],    -- 12 Mg
  [6, 7, 0, 0],    -- 13 Al
  [6, 8, 0, 0],    -- 14 Si
  [6, 9, 0, 0],    -- 15 P
  [6, 10, 0, 0],   -- 16 S
  [6, 11, 0, 0],   -- 17 Cl
  [6, 12, 0, 0],   -- 18 Ar
  [7, 12, 0, 0],   -- 19 K
  [8, 12, 0, 0],   -- 20 Ca
  [8, 12, 1, 0],   -- 21 Sc
  [8, 12, 2, 0],   -- 22 Ti
  [8, 12, 3, 0],   -- 23 V
  [7, 12, 5, 0],   -- 24 Cr
  [8, 12, 5, 0],   -- 25 Mn
  [8, 12, 6, 0],   -- 26 Fe
  [8, 12, 7, 0],   -- 27 Co
  [8, 12, 8, 0],   -- 28 Ni
  [7, 12, 10, 0],  -- 29 Cu
  [8, 12, 10, 0],  -- 30 Zn
  [8, 13, 10, 0],  -- 31 Ga
  [8, 14, 10, 0],  -- 32 Ge
  [8, 15, 10, 0],  -- 33 As
  [8, 16, 10, 0],  -- 34 Se
  [8, 17, 10, 0],  -- 35 Br
  [8, 18, 10, 0],  -- 36 Kr
  [9, 18, 10, 0],  -- 37 Rb
  [10, 18, 10, 0], -- 38 Sr
  [10, 18, 11, 0], -- 39 Y
  [10, 18, 12, 0], -- 40 Zr
  [9, 18, 14, 0],  -- 41 Nb
  [9, 18, 15, 0],  -- 42 Mo
  [10, 18, 15, 0], -- 43 Tc
  [9, 18, 17, 0],  -- 44 Ru
  [9, 18, 18, 0],  -- 45 Rh
  [8, 18, 20, 0],  -- 46 Pd
  [9, 18, 20, 0],  -- 47 Ag
  [10, 18, 20, 0], -- 48 Cd
  [10, 19, 20, 0], -- 49 In
  [10, 20, 20, 0], -- 50 Sn
  [10, 21, 20, 0], -- 51 Sb
  [10, 22, 20, 0], -- 52 Te
  [10, 23, 20, 0], -- 53 I
  [10, 24, 20, 0], -- 54 Xe
  [11, 24, 20, 0], -- 55 Cs
  [12, 24, 20, 0], -- 56 Ba
  [12, 24, 21, 0], -- 57 La
  [12, 24, 21, 1], -- 58 Ce
  [12, 24, 20, 3], -- 59 Pr
  [12, 24, 20, 4], -- 60 Nd
  [12, 24, 20, 5], -- 61 Pm
  [12, 24, 20, 6], -- 62 Sm
  [12, 24, 20, 7], -- 63 Eu
  [12, 24, 21, 7], -- 64 Gd
  [12, 24, 20, 9], -- 65 Tb
  [12, 24, 20, 10], -- 66 Dy
  [12, 24, 20, 11], -- 67 Ho
  [12, 24, 20, 12], -- 68 Er
  [12, 24, 20, 13], -- 69 Tm
  [12, 24, 20, 14], -- 70 Yb
  [12, 24, 21, 14], -- 71 Lu
  [12, 24, 22, 14], -- 72 Hf
  [12, 24, 23, 14], -- 73 Ta
  [12, 24, 24, 14], -- 74 W
  [12, 24, 25, 14], -- 75 Re
  [12, 24, 26, 14], -- 76 Os
  [12, 24, 27, 14], -- 77 Ir
  [11, 24, 29, 14], -- 78 Pt
  [11, 24, 30, 14], -- 79 Au
  [12, 24, 30, 14], -- 80 Hg
  [12, 25, 30, 14], -- 81 Tl
  [12, 26, 30, 14], -- 82 Pb
  [12, 27, 30, 14], -- 83 Bi
  [12, 28, 30, 14], -- 84 Po
  [12, 29, 30, 14], -- 85 At
  [12, 30, 30, 14], -- 86 Rn
  [13, 30, 30, 14], -- 87 Fr
  [14, 30, 30, 14], -- 88 Ra
  [14, 30, 31, 14], -- 89 Ac
  [14, 30, 32, 14], -- 90 Th
  [14, 30, 31, 16], -- 91 Pa
  [14, 30, 31, 17], -- 92 U
  [14, 30, 31, 18], -- 93 Np
  [14, 30, 30, 20], -- 94 Pu
  [14, 30, 30, 21], -- 95 Am
  [14, 30, 31, 21], -- 96 Cm
  [14, 30, 30, 23], -- 97 Bk
  [14, 30, 30, 24], -- 98 Cf
  [14, 30, 30, 25], -- 99 Es
  [14, 30, 30, 26], -- 100 Fm
  [14, 30, 30, 27], -- 101 Md
  [14, 30, 30, 28], -- 102 No
  [14, 31, 30, 28], -- 103 Lr
  [14, 30, 32, 28], -- 104 Rf
  [14, 30, 33, 28], -- 105 Db
  [14, 30, 34, 28], -- 106 Sg
  [14, 30, 35, 28], -- 107 Bh
  [14, 30, 36, 28], -- 108 Hs
  [14, 30, 37, 28], -- 109 Mt
  [14, 30, 38, 28], -- 110 Ds
  [14, 30, 39, 28], -- 111 Rg
  [14, 30, 40, 28], -- 112 Cn
  [14, 31, 40, 28], -- 113 Nh
  [14, 32, 40, 28], -- 114 Fl
  [14, 33, 40, 28], -- 115 Mc
  [14, 34, 40, 28], -- 116 Lv
  [14, 35, 40, 28], -- 117 Ts
  [14, 36, 40, 28]  -- 118 Og
]

/-- `ElementConfiguration.get_configuration_table`, one angular-momentum
column: distribute `elec` electrons over levels from `n_start = angular`
with per-level capacity `2 + 4*angular`; the remainder goes in the next
level; `assert n_end <= MAX_LEVEL`. Column of length `MAX_LEVEL`. -/
def configColumn (angular elec : Nat) : Except Err (List Nat) :=
  let cap := 2 + 4 * angular
  if elec = 0 then
    .ok (List.replicate MAX_LEVEL 0)
  else
    let nStart := angular
    let nEnd := nStart + elec / cap
    if MAX_LEVEL < nEnd then
      .error .assertionError
    else
      .ok ((List.range MAX_LEVEL).map fun r =>
        if nStart ≤ r ∧ r < nEnd then cap
        else if r = nEnd then elec % cap
        else 0)

/-- `ElementConfiguration.get_configuration_table` (with the constructor's
element-range check from `ElementConfiguration.__init__`): the 7×4 table of
per-level, per-angular-momentum electron counts, stored column-major. -/
def get_configuration_table (elem : Nat) : Except Err (List (List Nat)) :=
  if 118 < elem then .error .valueError
  else do
    let cfg := CONFIGURATION.getD elem []
    let c0 ← configColumn 0 (cfg.getD 0 0)
    let c1 ← configColumn 1 (cfg.getD 1 0)
    let c2 ← configColumn 2 (cfg.getD 2 0)
    let c3 ← configColumn 3 (cfg.getD 3 0)
    .ok [c0, c1, c2, c3]

/-- Sum of all cells of a table (`table.sum()`). -/
def tableSum (t : List (List Nat)) : Nat :=
  (t.map (fun col => col.sum)).sum

/-- Cell access `table[r, c]` of a column-major table. -/
def tableGet (t : List (List Nat)) (r c : Nat) : Nat :=
  (t.getD c []).getD r 0

example : Except.map tableSum (get_configuration_table 30) = .ok 30 := by decide
example : get_configuration_table 30 =
    .ok [[2, 2, 2, 2, 0, 0, 0], [0, 6, 6, 0, 0, 0, 0],
         [0, 0, 10, 0, 0, 0, 0], [0, 0, 0, 0, 0, 0, 0]] := by decide

/-- `table[:n, c] = 0` on one column: zero the first `n` entries. -/
def zeroPrefix : List Nat → Nat → List Nat
  | l, 0 => l
  | [], _ => []
  | _ :: xs, n + 1 => 0 :: zeroPrefix xs n

/-- `table[:n, c].sum()` on one column. -/
def colPrefixSum (col : List Nat) (n : Nat) : Nat :=
  (col.take n).sum

/-- `np.arange(MAX_LEVEL)[col > 0]` followed by emptiness test / `max`:
the largest index of a positive entry, if any. -/
def lastPos : List Nat → Option Nat
  | [] => none
  | x :: xs =>
    match lastPos xs with
    | some j => some (j + 1)
    | none => if 0 < x then some 0 else none

/-- One iteration of the loop in `ElementConfiguration.get_active_table`,
for column `angular` with requested level count `active`.
Note the source reads `table[:, 0]` (the s column of the current table) to
locate the highest non-empty level, for every `angular`. -/
def activeStep (isActive : Bool) (t : List (List Nat)) (angular active : Nat) :
    Except Err (List (List Nat)) :=
  if isActive = false then
    if colPrefixSum (t.getD angular []) active % (2 + 4 * angular) ≠ 0 then
      .error .valueError
    else
      .ok (t.set angular (zeroPrefix (t.getD angular []) active))
  else
    match lastPos (t.getD 0 []) with
    | none => .ok t
    | some nonEmptyLargest =>
      -- freeze_level = non_empty_largest - active + 1; skipped when <= 0;
      -- below, freeze_level is written out as nonEmptyLargest + 1 - active
      if nonEmptyLargest + 1 ≤ active then .ok t
      else
        if colPrefixSum (t.getD angular []) (nonEmptyLargest + 1 - active) %
            (2 + 4 * angular) ≠ 0 then
          .error .valueError
        else
          .ok (t.set angular
            (zeroPrefix (t.getD angular []) (nonEmptyLargest + 1 - active)))

/-- `for angular, active in enumerate(level): ...` -/
def activeLoop (isActive : Bool) : List (List Nat) → List (Nat × Nat) →
    Except Err (List (List Nat))
  | t, [] => .ok t
  | t, (angular, active) :: rest => do
    let t' ← activeStep isActive t angular active
    activeLoop isActive t' rest

/-- `ElementConfiguration.get_active_table(level, is_active)` for a
per-column level vector (`assert len(level) == MAX_ANG`; the non-negativity
assert is enforced by `Nat`). -/
def get_active_table (elem : Nat) (level : List Nat) (isActive : Bool) :
    Except Err (List (List Nat)) := do
  let t ← get_configuration_table elem
  if level.length ≠ MAX_ANG then .error .assertionError
  else activeLoop isActive t level.enum

/-- The variant of `get_active_table` that the spec sentence describes for
`is_active=true`: the cut point of each angular-momentum column is computed
from that same column's occupancy (the source instead reads column 0).
Stated from the spec's words, for comparison with the source's behaviour. -/
def activeStepPerColumn (isActive : Bool) (t : List (List Nat)) (angular active : Nat) :
    Except Err (List (List Nat)) :=
  if isActive = false then
    activeStep false t angular active
  else
    match lastPos (t.getD angular []) with
    | none => .ok t
    | some nonEmptyLargest =>
      if nonEmptyLargest + 1 ≤ active then .ok t
      else
        if colPrefixSum (t.getD angular []) (nonEmptyLargest + 1 - active) %
            (2 + 4 * angular) ≠ 0 then
          .error .valueError
        else
          .ok (t.set angular
            (zeroPrefix (t.getD angular []) (nonEmptyLargest + 1 - active)))

/-- Loop of `activeStepPerColumn` (spec-described variant). -/
def activeLoopPerColumn (isActive : Bool) : List (List Nat) → List (Nat × Nat) →
    Except Err (List (List Nat))
  | t, [] => .ok t
  | t, (angular, active) :: rest => do
    let t' ← activeStepPerColumn isActive t angular active
    activeLoopPerColumn isActive t' rest

/-- Spec-described per-column-cut variant of `get_active_table`. -/
def get_active_table_per_column (elem : Nat) (level : List Nat) (isActive : Bool) :
    Except Err (List (List Nat)) := do
  let t ← get_configuration_table elem
  if level.length ≠ MAX_ANG then .error .assertionError
  else activeLoopPerColumn isActive t level.enum

/-- `ElementConfiguration.get_num_core_electrons(active_level, by_valence)`:
total table sum minus active-table sum. -/
def get_num_core_electrons (elem : Nat) (level : List Nat) (isActive : Bool) :
    Except Err Int := do
  let t ← get_configuration_table elem
  let a ← get_active_table elem level isActive
  pure ((tableSum t : Int) - (tableSum a : Int))

/-- A frozen rule (`FrozenRuleBase` subclass): per-element active-level
vector and the `is_active` direction flag. -/
structure FrozenRule where
  active_levels : Nat → List Nat
  is_active : Bool

/-- `FrozenRuleBase.get_num_core(elem)`. -/
def FrozenRule.get_num_core (rule : FrozenRule) (elem : Nat) : Except Err Int :=
  get_num_core_electrons elem (rule.active_levels elem) rule.is_active

/-- `FrozenRuleBase.idx_alk_metal()`. -/
def idx_alk_metal : List Nat := [3, 4, 11, 12, 19, 20, 37, 38, 55, 56, 87, 88]

/-- `FrozenRuleBase.idx_transition()`. -/
def idx_transition : List Nat :=
  (List.range' 21 10) ++ (List.range' 39 10) ++ (List.range' 72 9) ++ (List.range' 104 9)

/-- `FrozenRuleBase.idx_p_main()`. -/
def idx_p_main : List Nat :=
  (List.range' 5 6) ++ (List.range' 13 6) ++ (List.range' 31 6) ++ (List.range' 49 6)
    ++ (List.range' 81 6) ++ (List.range' 113 6)

/-- `FrozenRuleBase.idx_la()`. -/
def idx_la : List Nat := List.range' 57 15

/-- `FrozenRuleBase.idx_ac()`. -/
def idx_ac : List Nat := List.range' 89 15

/-- `FrozenRuleNone`: all-zero levels, `is_active = False` (freeze nothing). -/
def frozenRuleNone : FrozenRule :=
  { active_levels := fun _ => [0, 0, 0, 0], is_active := false }

/-- `FrozenRuleORCA`. The source assigns rows in order (later assignments
overwrite earlier ones); rendered here with the last assignment checked
first. -/
def frozenRuleORCA : FrozenRule :=
  { active_levels := fun e =>
      if 104 ≤ e ∧ e < 113 then [1, 1, 2, 2]
      else if e ∈ idx_p_main then [1, 1, 2, 2]
      else if e ∈ idx_transition then [2, 2, 2, 3]
      else if e ∈ idx_ac then [2, 2, 3, 3]
      else if e ∈ idx_la then [2, 2, 3, 3]
      else if e ∈ idx_alk_metal then [2, 2, 3, 3]
      else if e < 3 then [1, 1, 1, 1]
      else [0, 0, 0, 0],
    is_active := true }

/-- `FrozenRuleNobleGasCore`. -/
def frozenRuleNobleGasCore : FrozenRule :=
  { active_levels := fun _ => [1, 1, 2, 3], is_active := true }

/-- `FrozenRuleInnerNobleGasCore`. -/
def frozenRuleInnerNobleGasCore : FrozenRule :=
  { active_levels := fun _ => [2, 2, 3, 4], is_active := true }

/-- `FrozenRuleSmallCore`. -/
def frozenRuleSmallCore : FrozenRule :=
  { active_levels := fun e =>
      if e = 3 ∨ e = 4 then [1, 1, 2, 3]
      else if e ∈ idx_alk_metal then [2, 2, 2, 3]
      else [1, 1, 2, 3],
    is_active := true }

/-- `FrozenRuleLargeCore`. -/
def frozenRuleLargeCore : FrozenRule :=
  { active_levels := fun e =>
      if e ∈ idx_transition then [1, 1, 2, 2]
      else if e ∈ idx_p_main then [1, 1, 1, 2]
      else [1, 1, 2, 3],
    is_active := true }

/-- `FrozenRules` registry, keyed by normalized rule name. -/
def FrozenRules : List (String × FrozenRule) := [
  ("none", frozenRuleNone),
  ("pyscf", frozenRuleORCA),
  ("orca", frozenRuleORCA),
  ("freezenoblegascore", frozenRuleNobleGasCore),
  ("freezeinnernoblegascore", frozenRuleInnerNobleGasCore),
  ("smallcore", frozenRuleSmallCore),
  ("largecore", frozenRuleLargeCore)
]

/-- `re.sub("[-_ ]", "", name.lower())`. -/
def normalizeRuleName (s : String) : String :=
  String.mk (s.data.filterMap fun ch =>
    if ch = Char.ofNat 45 ∨ ch = Char.ofNat 95 ∨ ch = Char.ofNat 32 then none
    else some ch.toLower)

/-- `FrozenRules[key]` (raises `KeyError` on a missing key). -/
def registryLookup (s : String) : Except Err FrozenRule :=
  match FrozenRules.lookup (normalizeRuleName s) with
  | some r => .ok r
  | none => .error .keyError

-- ORCA frozen-core counts reproduce the docstring table (spot checks).
example : frozenRuleORCA.get_num_core 41 = .ok 28 := by decide
example : frozenRuleORCA.get_num_core 31 = .ok 18 := by decide
example : frozenRuleORCA.get_num_core 8 = .ok 2 := by decide
example : frozenRuleORCA.get_num_core 11 = .ok 2 := by decide
example : frozenRuleORCA.get_num_core 13 = .ok 10 := by decide
example : frozenRuleORCA.get_num_core 19 = .ok 10 := by decide
example : frozenRuleORCA.get_num_core 37 = .ok 18 := by decide
example : frozenRuleORCA.get_num_core 39 = .ok 28 := by decide
example : frozenRuleORCA.get_num_core 46 = .ok 10 := by decide
example : frozenRuleORCA.get_num_core 55 = .ok 36 := by decide
example : frozenRuleORCA.get_num_core 57 = .ok 36 := by decide
example : frozenRuleORCA.get_num_core 72 = .ok 46 := by decide
example : frozenRuleORCA.get_num_core 81 = .ok 68 := by decide
example : frozenRuleORCA.get_num_core 89 = .ok 68 := by decide
example : frozenRuleORCA.get_num_core 104 = .ok 100 := by decide
example : frozenRuleNobleGasCore.get_num_core 53 = .ok 36 := by decide
example : frozenRuleNobleGasCore.get_num_core 11 = .ok 10 := by decide
example : frozenRuleNobleGasCore.get_num_core 46 = .ok 18 := by decide
example : frozenRuleInnerNobleGasCore.get_num_core 35 = .ok 10 := by decide
example : frozenRuleSmallCore.get_num_core 37 = .ok 28 := by decide
example : frozenRuleLargeCore.get_num_core 31 = .ok 28 := by decide

-- The source's column-0 cut and the spec's per-column cut differ at Zn.
example : Except.map (fun t => tableGet t 2 2) (get_active_table 30 [4, 3, 1, 0] true) =
    .ok 0 := by decide
example : Except.map (fun t => tableGet t 2 2)
    (get_active_table_per_column 30 [4, 3, 1, 0] true) = .ok 10 := by decide

/-- One atom of the molecule: `nelec = mol.atom_charge(idx)` (the electron
count actually carried, reduced under an ECP) and
`nchrg = elements.charge(mol.atom_symbol(idx))` (the nuclear charge). -/
structure Atom where
  nelec : Nat
  nchrg : Nat
deriving DecidableEq, Repr

/-- The molecule interface consumed by the engine: its atoms and
`mol.nelectron`. -/
structure Mol where
  atoms : List Atom
  nelectron : Nat

/-- A per-atom sub-rule as dispatched inside `parse_frozen_numbers`:
a registry name string, a rule object, a `(f_occ, f_vir)` integer pair, or
any other value (which matches none of the `isinstance` arms and therefore
contributes nothing — e.g. a numpy index array that fell through to the
rule-based branch). -/
inductive SubRule where
  | str (s : String)
  | obj (r : FrozenRule)
  | pair (occ vir : Int)
  | other

/-- A rule as accepted by `parse_frozen_numbers`: either one sub-rule
applied to every atom, or a per-element mapping (keys already converted by
`elements.charge`). -/
inductive PFRule where
  | sub (r : SubRule)
  | dct (d : List (Nat × SubRule))

/-- The per-atom rule value `(f_occ_atom, f_vir_atom)` before the ECP
adjustment: the `isinstance` chain over the sub-rule. -/
def ruleValue (r : SubRule) (nchrg : Nat) : Except Err (Int × Int) :=
  match r with
  | .str s => do
    let fr ← registryLookup s
    let n ← fr.get_num_core nchrg
    .ok (n, 0)
  | .obj fr => do
    let n ← fr.get_num_core nchrg
    .ok (n, 0)
  | .pair occ vir => .ok (occ, vir)
  | .other => .ok (0, 0)

/-- The "finalize frozen core evaluation of atom" step: when the atom
carries an ECP (`nelec != nchrg`), either suppress the contribution
(`ecp_only`) or reduce it by `min(f_occ_atom, nchrg - nelec)`. -/
def finalizeEcp (nelec nchrg : Nat) (ecp_only : Bool) (f_occ_atom : Int) : Int :=
  if nelec ≠ nchrg ∧ ecp_only = true then 0
  else if nelec ≠ nchrg then f_occ_atom - min f_occ_atom ((nchrg : Int) - (nelec : Int))
  else f_occ_atom

/-- One atom's `(f_occ_atom, f_vir_atom)` contribution inside the loop of
`parse_frozen_numbers`. -/
def atomContrib (nelec nchrg : Nat) (r : SubRule) (ecp_only : Bool) :
    Except Err (Int × Int) := do
  let v ← ruleValue r nchrg
  .ok (finalizeEcp nelec nchrg ecp_only v.1, v.2)

/-- `dict[nchrg]` lookup (raises `KeyError` when the element is missing). -/
def dictLookup (d : List (Nat × SubRule)) (k : Nat) : Except Err SubRule :=
  match d.lookup k with
  | some v => .ok v
  | none => .error .keyError

/-- The per-atom accumulation loop of `parse_frozen_numbers`. -/
def pfnAtoms (ecp_only : Bool) (rule : PFRule) : List Atom → Except Err (Int × Int)
  | [] => .ok (0, 0)
  | a :: rest => do
    let ra ← match rule with
             | .dct d => dictLookup d a.nchrg
             | .sub s => .ok s
    let c ← atomContrib a.nelec a.nchrg ra ecp_only
    let r ← pfnAtoms ecp_only rule rest
    .ok (c.1 + r.1, c.2 + r.2)

/-- `FrozenCore.parse_frozen_numbers(mol, rule, ecp_only)`: `None` gives
`(0, 0)`; a top-level integer pair is returned as-is (bypassing all per-atom
logic); otherwise the per-atom loop runs. -/
def parse_frozen_numbers (mol : Mol) (rule : Option PFRule) (ecp_only : Bool) :
    Except Err (Int × Int) :=
  match rule with
  | none => .ok (0, 0)
  | some (.sub (.pair occ vir)) => .ok (occ, vir)
  | some r => pfnAtoms ecp_only r mol.atoms

-- The spec's ECP scenario: rule contributing 10, ECP removing 10 of 18.
example : atomContrib 8 18 (.pair 10 0) false = .ok (0, 0) := by decide
example : atomContrib 8 18 (.pair 10 0) true = .ok (0, 0) := by decide
example : atomContrib 18 18 (.pair 10 0) false = .ok (10, 0) := by decide

/-- Normalized start index of the Python slice `a[start:]` over a row of
length `len`. -/
def pySliceLo (len : Nat) (start : Int) : Nat :=
  if start < 0 then (len + start).toNat else min start.toNat len

/-- Normalized stop index of the Python slice `a[:stop]` over a row of
length `len`. -/
def pySliceHi (len : Nat) (stop : Int) : Nat :=
  if stop < 0 then (len + stop).toNat else min stop.toNat len

/-- One row of the mask built by `parse_active_mask_by_elec`:
`mask[:, :n_occ_frz] = False` and, when `n_vir_frz > 0`,
`mask[:, -n_vir_frz:] = False`. -/
def rowMaskByElec (len : Nat) (nOccFrz nVirFrz : Int) : List Bool :=
  (List.range len).map fun j =>
    !(decide (j < pySliceHi len nOccFrz) ||
      (decide (0 < nVirFrz) && decide (pySliceLo len (-nVirFrz) ≤ j)))

/-- `int(np.max(mo_occ))`: the per-orbital electron capacity. -/
def npMax (mo_occ : List (List Nat)) : Nat :=
  mo_occ.foldl (fun acc row => row.foldl max acc) 0

/-- `FrozenCore.parse_active_mask_by_elec(mo_occ, f_occ, f_vir)`:
`orb_elec = int(np.max(mo_occ))`; both electron counts must divide
`nset * orb_elec` exactly (Python `%`, which raises `ZeroDivisionError` on a
zero divisor), else `ValueError`; the quotients (`//`, floor division) give
the numbers of frozen occupied/virtual orbitals per channel. -/
def parse_active_mask_by_elec (mo_occ : List (List Nat)) (f_occ f_vir : Int) :
    Except Err (List (List Bool)) :=
  let orb_elec := npMax mo_occ
  let nset := mo_occ.length
  let k := nset * orb_elec
  if k = 0 then .error .zeroDivisionError
  else if ¬(f_occ.emod k = 0 ∧ f_vir.emod k = 0) then .error .valueError
  else
    .ok (mo_occ.map fun row => rowMaskByElec row.length (f_occ.fdiv k) (f_vir.fdiv k))

example : parse_active_mask_by_elec [[2, 2, 2, 2, 2, 0, 0]] 2 0 =
    .ok [[false, true, true, true, true, true, true]] := by decide
example : parse_active_mask_by_elec [[2, 2, 0, 0]] 2 4 =
    .ok [[false, true, false, false]] := by decide
example : parse_active_mask_by_elec [[2, 2, 0, 0]] 3 0 = .error .valueError := by decide

/-- An occupation-number array: one spin channel (ndim 1) or several
(ndim 2). -/
inductive MoOcc where
  | one (l : List Nat)
  | two (ls : List (List Nat))
deriving DecidableEq, Repr

/-- An active-orbital mask, same shape as the occupation array. -/
inductive Mask where
  | one (l : List Bool)
  | two (ls : List (List Bool))
deriving DecidableEq, Repr

/-- The value of `FrozenCore.frozen()`: one index list (ndim 1) or one per
channel (ndim 2). -/
inductive Frz where
  | one (l : List Nat)
  | two (ls : List (List Nat))
deriving DecidableEq, Repr

/-- The `rule` attribute of `FrozenCore`, by runtime type:
`idx1`/`idxN` are Python lists of orbital indices (one list, or one list
per channel), `ndarr` is a numpy index array (NOT a Python list, so it
fails the source's `isinstance(self.rule, list or np.ndarray)` check),
`tup` is a tuple of two integers, and the rest are the rule-based forms. -/
inductive Rule where
  | idx1 (l : List Nat)
  | idxN (ls : List (List Nat))
  | ndarr (l : List Nat)
  | tup (occ vir : Int)
  | named (s : String)
  | obj (r : FrozenRule)
  | dct (d : List (Nat × SubRule))

/-- The `FrozenCore` selection object. `_mask`/`_frozen` model the
`NotImplemented` memoization sentinels (`none` = not yet computed).
`mo_energy` is omitted: the energy-window mode is unreachable for the
claims considered here (every tuple-typed rule raises before dispatch). -/
structure State where
  mol : Mol
  mo_occ : MoOcc
  rule : Option Rule
  ecp_only : Bool
  _mask : Option Mask
  _frozen : Option Frz

/-- `FrozenCore.__init__(mol, mo_occ, rule, ecp_only)`. -/
def State.init (mol : Mol) (mo_occ : MoOcc) (rule : Option Rule) (ecp_only : Bool) :
    State :=
  { mol := mol, mo_occ := mo_occ, rule := rule, ecp_only := ecp_only,
    _mask := none, _frozen := none }

/-- `FrozenCore.reset()`: drop both memoized results. -/
def State.reset (fc : State) : State :=
  { fc with _mask := none, _frozen := none }

/-- The occupation array normalized to 2-D (`mo_occ.reshape((1, -1))` for
ndim 1). -/
def State.occ2 (fc : State) : List (List Nat) :=
  match fc.mo_occ with
  | .one l => [l]
  | .two ls => ls

/-- Is a row non-increasing? The source sorts a copy ascending, reverses
it, and compares with the original, which holds iff the row is already
sorted in non-increasing order. -/
def isSortedDesc : List Nat → Bool
  | [] => true
  | [_] => true
  | a :: b :: t => decide (b ≤ a) && isSortedDesc (b :: t)

/-- `FrozenCore.check_sanity()`: the occupation sums to `mol.nelectron` and
each channel is sorted large→small. (The ndim and integrality asserts are
enforced by the types of this embedding.) -/
def State.check_sanity (fc : State) : Except Err Unit :=
  if (fc.occ2.map (fun row => row.sum)).sum ≠ fc.mol.nelectron then
    .error .assertionError
  else if ¬ fc.occ2.all isSortedDesc then .error .assertionError
  else .ok ()

/-- Convert the rule to the form `parse_frozen_numbers` receives in the
rule-based branch. List/tuple rules never reach that branch; like any value
matching none of the resolver's `isinstance` arms they map to `other`. -/
def toPF (r : Option Rule) : Option PFRule :=
  match r with
  | none => none
  | some (.named s) => some (.sub (.str s))
  | some (.obj fr) => some (.sub (.obj fr))
  | some (.dct d) => some (.dct d)
  | some (.ndarr _) => some (.sub .other)
  | some (.idx1 _) => some (.sub .other)
  | some (.idxN _) => some (.sub .other)
  | some (.tup occ vir) => some (.sub (.pair occ vir))

/-- Reshape the internal 2-D mask back to the shape of `mo_occ`. -/
def reshapeMask (fc : State) (m : List (List Bool)) : Mask :=
  match fc.mo_occ with
  | .one _ => Mask.one (m.headD [])
  | .two _ => Mask.two m

/-- `FrozenCore.get_active_mask()`. Branch order follows the source:
1. `isinstance(self.rule, list or np.ndarray)` — which evaluates
   `list or np.ndarray` to `list`, so only Python lists are caught;
2. `isinstance(self.rule, tuple) and isinstance(self.rule[0], "str")` —
   the second test passes the string `"str"` instead of the type `str`, so
   every tuple-typed rule raises `TypeError` while the condition is being
   evaluated;
3. otherwise the rule-based path. -/
def State.get_active_mask (fc : State) : Except Err Mask := do
  let _ ← fc.check_sanity
  let occ := fc.occ2
  let nset := occ.length
  let nmo := (occ.headD []).length
  match fc.rule with
  | some (.idx1 arr) =>
    -- `hasattr(arr[0], "__iter__")` indexes the first element
    if arr.isEmpty then .error .indexError
    else if arr.any (fun i => nmo ≤ i) then .error .indexError
    else .ok (reshapeMask fc (List.replicate nset
      ((List.range nmo).map fun j => decide (j ∉ arr))))
  | some (.idxN arrs) =>
    if arrs.isEmpty then .error .indexError
    else if arrs.length ≠ nset then .error .assertionError
    else if arrs.any (fun a => a.any fun i => nmo ≤ i) then .error .indexError
    else .ok (reshapeMask fc ((List.range nset).map fun i =>
      (List.range nmo).map fun j => decide (j ∉ arrs.getD i [])))
  | some (.tup _ _) => .error .typeError
  | r => do
    let fv ← parse_frozen_numbers fc.mol (toPF r) fc.ecp_only
    let m ← parse_active_mask_by_elec occ fv.1 fv.2
    .ok (reshapeMask fc m)

/-- The `FrozenCore.mask` property: memoized `get_active_mask`. Returns the
value together with the updated object. -/
def State.maskGet (fc : State) : Except Err (Mask × State) :=
  match fc._mask with
  | some m => .ok (m, fc)
  | none =>
    match fc.get_active_mask with
    | .error e => .error e
    | .ok m => .ok (m, { fc with _mask := some m })

/-- `FrozenCore.frozen()`: memoized; computed from the mask as
`np.arange(n)[mask]` per channel — i.e. the indices at which the (active)
mask is `True`. -/
def State.frozenGet (fc : State) : Except Err (Frz × State) :=
  match fc._frozen with
  | some f => .ok (f, fc)
  | none =>
    match fc.maskGet with
    | .error e => .error e
    | .ok (m, fc') =>
      let f := match m with
        | .one l => Frz.one ((List.range l.length).filter fun i => l.getD i false)
        | .two ls => Frz.two (ls.map fun l =>
            (List.range l.length).filter fun i => l.getD i false)
      .ok (f, { fc' with _frozen := some f })

-- Explicit frozen-index list [0] on a 2-orbital closed-shell system:
-- the mask marks orbital 0 inactive, but frozen() returns the True
-- (active) indices — [1], not [0].
example : Except.map Prod.fst (State.maskGet
    (State.init ⟨[], 2⟩ (.one [2, 0]) (some (.idx1 [0])) false)) =
    .ok (Mask.one [false, true]) := by decide
example : Except.map Prod.fst (State.frozenGet
    (State.init ⟨[], 2⟩ (.one [2, 0]) (some (.idx1 [0])) false)) =
    .ok (Frz.one [1]) := by decide

/-!  Theorems settling the claims. -/

/-- C7: for every element 0–118, the sum of all cells of the 7×4 table
returned by `get_configuration_table` equals the element's canonical total
electron count (no electrons are lost or duplicated by the per-column
shell-filling distribution, including the remainder placement). -/
theorem configuration_table_total (e : Fin 119) :
    Except.map tableSum (get_configuration_table (e : Nat)) = .ok (e : Nat) := by
  revert e
  decide

/-- C8: for every element 0–118, the identity frozen rule `"none"` yields
`get_num_core(element) == 0`: it freezes no electrons for any element. -/
theorem none_rule_num_core_zero (e : Fin 119) :
    frozenRuleNone.get_num_core (e : Nat) = .ok 0 := by
  revert e
  decide

/-- C1 (code bug): with the rule given as the explicit frozen-index list
`[0]` over occupation `[2, 0]`, the mask correctly marks orbital 0
inactive, but `FrozenCore.frozen` indexes `np.arange(n)` with the ACTIVE
mask itself rather than its inverse, so it returns `[1]` — the active
indices — instead of the frozen list `[0]` the claim (and the method's own
docstring) describe. -/
theorem frozen_returns_active_indices :
    Except.map Prod.fst (State.maskGet
      (State.init ⟨[], 2⟩ (.one [2, 0]) (some (.idx1 [0])) false)) =
      .ok (Mask.one [false, true]) ∧
    Except.map Prod.fst (State.frozenGet
      (State.init ⟨[], 2⟩ (.one [2, 0]) (some (.idx1 [0])) false)) =
      .ok (Frz.one [1]) := by
  constructor
  · decide
  · decide

/-- C2 (code bug): for the water-like closed-shell system with occupation
`[2,2,2,2,2,0,0]` and the explicit integer pair rule `(2, 0)`,
`get_active_mask` does not return a mask: the branch condition
`isinstance(self.rule[0], "str")` passes the string `"str"` where a type is
required, so every tuple-typed rule raises `TypeError` instead of reaching
`parse_active_mask_by_elec`. -/
theorem tuple_rule_raises_type_error :
    State.get_active_mask
      (State.init ⟨[], 10⟩ (.one [2, 2, 2, 2, 2, 0, 0]) (some (.tup 2 0)) false) =
      .error Err.typeError ∧
    parse_active_mask_by_elec [[2, 2, 2, 2, 2, 0, 0]] 2 0 =
      .ok [[false, true, true, true, true, true, true]] := by
  constructor
  · decide
  · decide

/-- C4 (code bug): a numpy integer index array `[0]` as the rule is NOT
treated like the Python list `[0]`: `isinstance(self.rule, list or
np.ndarray)` only tests against `list`, so the array falls through to the
rule-based branch, matches none of the resolver's `isinstance` arms,
resolves to zero frozen electrons, and yields the all-active mask — while
the same indices as a Python list freeze orbital 0. -/
theorem ndarray_rule_not_treated_as_list :
    State.get_active_mask
      (State.init ⟨[⟨2, 2⟩], 2⟩ (.one [2, 0]) (some (.ndarr [0])) false) =
      .ok (Mask.one [true, true]) ∧
    State.get_active_mask
      (State.init ⟨[⟨2, 2⟩], 2⟩ (.one [2, 0]) (some (.idx1 [0])) false) =
      .ok (Mask.one [false, true]) := by
  constructor
  · decide
  · decide

/-- C3 counterexample: the claim "each angular-momentum column's cut point
is computed from that same column's occupancy" fails at element 30 (Zn)
with level vector `[4, 3, 1, 0]` and `is_active = true`: the source reads
column 0 (highest non-empty s level 3), giving the d column the cut
`3 − 1 + 1 = 3` and zeroing the 3d shell (cell `(2, 2)` becomes 0), whereas
the per-column rule stated by the claim cuts the d column at
`2 − 1 + 1 = 2` and keeps its 10 electrons. -/
theorem active_table_cut_not_per_column :
    Except.map (fun t => tableGet t 2 2) (get_active_table 30 [4, 3, 1, 0] true) =
      .ok 0 ∧
    Except.map (fun t => tableGet t 2 2)
      (get_active_table_per_column 30 [4, 3, 1, 0] true) = .ok 10 := by
  constructor
  · decide
  · decide

lemma bindOk {ε α β : Type} (a : α) (f : α → Except ε β) :
    (do let x ← Except.ok a; f x) = f a := rfl

/-- C5: in `parse_frozen_numbers`, an atom carrying an ECP (`nelec ≠
nchrg`) contributes zero rule-based frozen-occupied electrons when
`ecp_only = true`, and with `ecp_only = false` its contribution is the
rule's value reduced by `min(rule_value, nchrg − nelec)`, which is never
negative. Stated on a one-atom molecule with a per-element mapping so the
per-atom loop (not the top-level tuple shortcut) is exercised. -/
theorem parse_frozen_numbers_ecp_adjustment (nelec nchrg n : Nat) (r : SubRule)
    (f0 v0 : Int) (h_ecp : nelec ≠ nchrg) (hr : ruleValue r nchrg = .ok (f0, v0)) :
    parse_frozen_numbers ⟨[⟨nelec, nchrg⟩], n⟩ (some (.dct [(nchrg, r)])) true =
      .ok (0, v0) ∧
    parse_frozen_numbers ⟨[⟨nelec, nchrg⟩], n⟩ (some (.dct [(nchrg, r)])) false =
      .ok (f0 - min f0 ((nchrg : Int) - (nelec : Int)), v0) ∧
    0 ≤ f0 - min f0 ((nchrg : Int) - (nelec : Int)) := by
  have hac : ∀ eo, atomContrib nelec nchrg r eo =
      .ok (finalizeEcp nelec nchrg eo f0, v0) := by
    intro eo
    unfold atomContrib
    rw [hr]
    rfl
  refine ⟨?_, ?_, ?_⟩
  · simp [parse_frozen_numbers, pfnAtoms, dictLookup, List.lookup, hac, bindOk,
      finalizeEcp, h_ecp]
  · simp [parse_frozen_numbers, pfnAtoms, dictLookup, List.lookup, hac, bindOk,
      finalizeEcp, h_ecp]
  · have := min_le_left f0 ((nchrg : Int) - (nelec : Int))
    omega

/-- Witness for C5 at the spec's ECP scenario: an atom with ECP removing 10
of 18 electrons and a rule contributing 10 frozen electrons. -/
theorem parse_frozen_numbers_ecp_adjustment_witness :
    parse_frozen_numbers ⟨[⟨8, 18⟩], 8⟩ (some (.dct [(18, .pair 10 0)])) true =
      .ok (0, 0) ∧
    parse_frozen_numbers ⟨[⟨8, 18⟩], 8⟩ (some (.dct [(18, .pair 10 0)])) false =
      .ok (10 - min 10 (((18 : Nat) : Int) - ((8 : Nat) : Int)), 0) ∧
    0 ≤ (10 : Int) - min 10 (((18 : Nat) : Int) - ((8 : Nat) : Int)) :=
  parse_frozen_numbers_ecp_adjustment 8 18 8 (.pair 10 0) 10 0 (by decide) rfl

lemma getD_map_range (f : Nat → Bool) (n j : Nat) (h : j < n) :
    ((List.range n).map f).getD j false = f j := by
  rw [List.getD_eq_getElem?_getD]
  simp [List.getElem?_map, List.getElem?_range h]

lemma getD_map_rows (mo : List (List Nat)) (f : List Nat → List Bool) (i : Nat)
    (h : i < mo.length) : (mo.map f).getD i [] = f (mo.getD i []) := by
  rw [List.getD_eq_getElem?_getD, List.getD_eq_getElem?_getD]
  simp only [List.getElem?_map]
  rw [(List.getElem?_eq_some.mpr ⟨h, rfl⟩ : mo[i]? = some mo[i])]
  simp

/-- Pointwise description of one mask row built by `rowMaskByElec` for
non-negative frozen-orbital counts: entry `j` is `False` exactly when
`j < n_occ_frz` or `j ≥ len - n_vir_frz`. -/
lemma rowMaskByElec_getD (len : Nat) (nOcc nVir : Int) (hO : 0 ≤ nOcc) (hV : 0 ≤ nVir)
    (j : Nat) (hj : j < len) :
    (rowMaskByElec len nOcc nVir).getD j false =
      !(decide (j < nOcc.toNat) || decide (len - nVir.toNat ≤ j)) := by
  unfold rowMaskByElec
  rw [getD_map_range _ _ _ hj]
  have h1 : decide (j < pySliceHi len nOcc) = decide (j < nOcc.toNat) := by
    unfold pySliceHi
    rw [if_neg (by omega)]
    exact decide_eq_decide.mpr (by omega)
  rw [h1]
  rcases eq_or_lt_of_le hV with hz | hpos
  · rw [show nVir = 0 by omega]
    simp only [decide_eq_false (by omega : ¬ (0 : Int) < 0), Bool.false_and]
    have : decide (len - (0 : Int).toNat ≤ j) = false :=
      decide_eq_false (by omega)
    rw [this]
  · have h2 : pySliceLo len (-nVir) = len - nVir.toNat := by
      unfold pySliceLo
      rw [if_pos (by omega)]
      omega
    rw [h2, decide_eq_true (by omega : (0 : Int) < nVir), Bool.true_and]

/-- Inversion of a successful `parse_active_mask_by_elec`: the divisor is
positive, both counts divide it, and the mask is built row by row. -/
lemma parse_active_mask_ok (mo_occ : List (List Nat)) (f_occ f_vir : Int)
    (mask : List (List Bool))
    (h : parse_active_mask_by_elec mo_occ f_occ f_vir = .ok mask) :
    0 < mo_occ.length * npMax mo_occ ∧
    ((mo_occ.length * npMax mo_occ : Nat) : Int) ∣ f_occ ∧
    ((mo_occ.length * npMax mo_occ : Nat) : Int) ∣ f_vir ∧
    mask = mo_occ.map fun row =>
      rowMaskByElec row.length (f_occ.fdiv ((mo_occ.length * npMax mo_occ : Nat) : Int))
        (f_vir.fdiv ((mo_occ.length * npMax mo_occ : Nat) : Int)) := by
  simp only [parse_active_mask_by_elec] at h
  split at h
  · exact absurd h (by simp)
  · split at h
    · exact absurd h (by simp)
    · rename_i hk hdvd
      rw [not_not] at hdvd
      refine ⟨by omega, ?_, ?_, ?_⟩
      · exact Int.dvd_iff_emod_eq_zero.mpr hdvd.1
      · exact Int.dvd_iff_emod_eq_zero.mpr hdvd.2
      · exact (Except.ok.injEq _ _).mp h.symm

/-- C6: `parse_active_mask_by_elec` raises its validation error iff one of
the two frozen-electron counts is not evenly divisible by
`channel count × per-orbital capacity` (the capacity being the maximum
occupation value); when both divide, the returned mask freezes exactly the
lowest `n_occ_frz` and the highest `n_vir_frz` orbitals of every channel. -/
theorem parse_active_mask_by_elec_division (mo_occ : List (List Nat)) (f_occ f_vir : Int)
    (hk : 0 < mo_occ.length * npMax mo_occ) (ho : 0 ≤ f_occ) (hv : 0 ≤ f_vir) :
    ((parse_active_mask_by_elec mo_occ f_occ f_vir = .error Err.valueError) ↔
      ¬(((mo_occ.length * npMax mo_occ : Nat) : Int) ∣ f_occ ∧
        ((mo_occ.length * npMax mo_occ : Nat) : Int) ∣ f_vir)) ∧
    (∀ mask, parse_active_mask_by_elec mo_occ f_occ f_vir = .ok mask →
      ∀ i j, i < mo_occ.length → j < (mo_occ.getD i []).length →
        ((mask.getD i []).getD j false = false ↔
          (j < (f_occ.fdiv ((mo_occ.length * npMax mo_occ : Nat) : Int)).toNat ∨
           (mo_occ.getD i []).length -
             (f_vir.fdiv ((mo_occ.length * npMax mo_occ : Nat) : Int)).toNat ≤ j))) := by
  constructor
  · simp only [parse_active_mask_by_elec]
    rw [if_neg (by omega)]
    constructor
    · intro h
      split at h
      · rename_i hdvd
        intro hc
        exact hdvd ⟨Int.dvd_iff_emod_eq_zero.mp hc.1, Int.dvd_iff_emod_eq_zero.mp hc.2⟩
      · exact absurd h (by simp)
    · intro h
      rw [if_pos ?_]
      intro hc
      exact h ⟨Int.dvd_iff_emod_eq_zero.mpr hc.1, Int.dvd_iff_emod_eq_zero.mpr hc.2⟩
  · intro mask hok i j hi hj
    obtain ⟨hkp, hdo, hdv, hm⟩ := parse_active_mask_ok mo_occ f_occ f_vir mask hok
    subst hm
    rw [getD_map_rows _ _ _ hi,
      rowMaskByElec_getD _ _ _ (Int.fdiv_nonneg ho (by omega))
        (Int.fdiv_nonneg hv (by omega)) _ hj]
    simp only [Bool.not_eq_false', Bool.or_eq_true, decide_eq_true_eq]

/-- Witness for C6: a one-channel, capacity-2 system; `f_occ = 3` is not
divisible by `1 × 2`, so the validation error is raised. -/
theorem parse_active_mask_by_elec_division_witness :
    parse_active_mask_by_elec [[2, 2, 0, 0]] 3 0 = .error Err.valueError :=
  (parse_active_mask_by_elec_division [[2, 2, 0, 0]] 3 0 (by decide) (by decide)
    (by decide)).1.mpr (by decide)

/-- C10: in `parse_active_mask_by_elec`, whenever the frozen-virtual
electron count resolves to zero frozen virtual orbitals (`n_vir_frz == 0`),
no high-index orbitals are frozen: every mask entry from column
`n_occ_frz` to the last column is `True` in every channel (the
`mask[:, -0:]` negative-slice pitfall is guarded by `if n_vir_frz > 0`). -/
theorem no_virtual_freeze_when_zero (mo_occ : List (List Nat)) (f_occ f_vir : Int)
    (ho : 0 ≤ f_occ) (hv : 0 ≤ f_vir) (mask : List (List Bool))
    (h : parse_active_mask_by_elec mo_occ f_occ f_vir = .ok mask)
    (hzero : f_vir.fdiv ((mo_occ.length * npMax mo_occ : Nat) : Int) = 0) :
    ∀ i j, i < mo_occ.length →
      (f_occ.fdiv ((mo_occ.length * npMax mo_occ : Nat) : Int)).toNat ≤ j →
      j < (mo_occ.getD i []).length →
      (mask.getD i []).getD j false = true := by
  intro i j hi hlo hj
  obtain ⟨hkp, hdo, hdv, hm⟩ := parse_active_mask_ok mo_occ f_occ f_vir mask h
  subst hm
  rw [getD_map_rows _ _ _ hi,
    rowMaskByElec_getD _ _ _ (Int.fdiv_nonneg ho (by omega))
      (Int.fdiv_nonneg hv (by omega)) _ hj, hzero]
  simp only [Bool.not_eq_true', Bool.or_eq_false_iff, decide_eq_false_iff_not]
  omega

/-- Witness for C10: one channel `[2, 0]`, two frozen occupied electrons,
no frozen virtual electrons; the entry past the frozen-occupied block
stays active. -/
theorem no_virtual_freeze_when_zero_witness :
    (([[false, true]] : List (List Bool)).getD 0 []).getD 1 false = true :=
  no_virtual_freeze_when_zero [[2, 0]] 2 0 (by decide) (by decide) [[false, true]]
    (by decide) (by decide) 0 1 (by decide) (by decide) (by decide)

/-- `get_active_mask` reads only the input attributes, never the caches. -/
lemma get_active_mask_cache_free (fc : State) (m : Option Mask) (f : Option Frz) :
    State.get_active_mask { fc with _mask := m, _frozen := f } = fc.get_active_mask := by
  cases fc
  rfl

/-- An uncached `mask` access computes `get_active_mask` and stores it. -/
lemma maskGet_uncached (fc : State) (h : fc._mask = none) :
    fc.maskGet =
      Except.map (fun m => (m, { fc with _mask := some m })) fc.get_active_mask := by
  unfold State.maskGet
  rw [h]
  cases fc.get_active_mask <;> rfl

/-- C9: accessing the mask repeatedly on the same `FrozenCore` selection
with no intervening `reset()` returns the identical cached value (and
leaves the object unchanged); after `reset()` the cache is cleared and the
next access recomputes `get_active_mask`, which depends only on the
unchanged inputs. -/
theorem mask_memoization (fc : State) (m1 m2 : Mask) (fc1 fc2 : State)
    (h1 : fc.maskGet = .ok (m1, fc1)) (h2 : fc1.maskGet = .ok (m2, fc2)) :
    m2 = m1 ∧ fc2 = fc1 ∧ fc1.reset._mask = none ∧
    fc1.reset.maskGet =
      Except.map (fun m => (m, { fc1.reset with _mask := some m }))
        fc1.reset.get_active_mask ∧
    fc1.reset.get_active_mask = fc.get_active_mask := by
  have key : fc1._mask = some m1 ∧ fc1.reset = fc.reset := by
    cases hm : fc._mask with
    | some m =>
      simp only [State.maskGet, hm] at h1
      obtain ⟨hme, hfe⟩ := Prod.mk.injEq .. ▸ (Except.ok.injEq .. ▸ h1)
      subst hfe
      rw [hm, hme]
      exact ⟨rfl, rfl⟩
    | none =>
      cases hg : fc.get_active_mask with
      | error e0 => simp [State.maskGet, hm, hg] at h1
      | ok m =>
        simp only [State.maskGet, hm, hg] at h1
        obtain ⟨hme, hfe⟩ := Prod.mk.injEq .. ▸ (Except.ok.injEq .. ▸ h1)
        subst hfe
        exact ⟨by rw [hme], rfl⟩
  obtain ⟨hc1, hr1⟩ := key
  simp only [State.maskGet, hc1] at h2
  obtain ⟨hm2, hf2⟩ := Prod.mk.injEq .. ▸ (Except.ok.injEq .. ▸ h2)
  refine ⟨hm2.symm, hf2.symm, rfl, maskGet_uncached _ rfl, ?_⟩
  rw [hr1]
  exact get_active_mask_cache_free fc none none

/-- Witness for C9 on a concrete selection: list rule `[0]`, occupation
`[2, 0]`. -/
theorem mask_memoization_witness :
    Mask.one [false, true] = Mask.one [false, true] ∧
    { State.init ⟨[], 2⟩ (.one [2, 0]) (some (.idx1 [0])) false with
        _mask := some (Mask.one [false, true]) } =
      { State.init ⟨[], 2⟩ (.one [2, 0]) (some (.idx1 [0])) false with
        _mask := some (Mask.one [false, true]) } ∧
    (State.reset { State.init ⟨[], 2⟩ (.one [2, 0]) (some (.idx1 [0])) false with
        _mask := some (Mask.one [false, true]) })._mask = none ∧
    (State.reset { State.init ⟨[], 2⟩ (.one [2, 0]) (some (.idx1 [0])) false with
        _mask := some (Mask.one [false, true]) }).maskGet =
      Except.map (fun m => (m,
        { State.reset { State.init ⟨[], 2⟩ (.one [2, 0]) (some (.idx1 [0])) false with
            _mask := some (Mask.one [false, true]) } with _mask := some m }))
        (State.reset { State.init ⟨[], 2⟩ (.one [2, 0]) (some (.idx1 [0])) false with
            _mask := some (Mask.one [false, true]) }).get_active_mask ∧
    (State.reset { State.init ⟨[], 2⟩ (.one [2, 0]) (some (.idx1 [0])) false with
        _mask := some (Mask.one [false, true]) }).get_active_mask =
      (State.init ⟨[], 2⟩ (.one [2, 0]) (some (.idx1 [0])) false).get_active_mask :=
  mask_memoization (State.init ⟨[], 2⟩ (.one [2, 0]) (some (.idx1 [0])) false)
    (Mask.one [false, true]) (Mask.one [false, true]) _ _ rfl rfl

lemma zeroPrefix_nil (n : Nat) : zeroPrefix [] n = [] := by
  cases n <;> rfl

lemma zeroPrefix_getD (l : List Nat) (n i : Nat) :
    (zeroPrefix l n).getD i 0 = if i < n then 0 else l.getD i 0 := by
  induction l generalizing n i with
  | nil =>
    rw [zeroPrefix_nil]
    simp
  | cons x xs ih =>
    cases n with
    | zero => simp [zeroPrefix]
    | succ n =>
      cases i with
      | zero => simp [zeroPrefix]
      | succ i =>
        simp only [zeroPrefix, List.getD_cons_succ, ih n i]
        split_ifs <;> first | rfl | omega

lemma lastPos_zeroPrefix (l : List Nat) (n L : Nat) (hL : lastPos l = some L)
    (hn : n ≤ L) : lastPos (zeroPrefix l n) = some L := by
  induction l generalizing n L with
  | nil => simp [lastPos] at hL
  | cons x xs ih =>
    cases n with
    | zero => simpa [zeroPrefix] using hL
    | succ n =>
      unfold lastPos at hL
      cases hxs : lastPos xs with
      | none =>
        rw [hxs] at hL
        by_cases hx : 0 < x
        · rw [if_pos hx] at hL
          exact absurd (Option.some.inj hL) (by omega)
        · rw [if_neg hx] at hL
          exact absurd hL (by simp)
      | some j =>
        rw [hxs] at hL
        have hLj : L = j + 1 := (Option.some.inj hL).symm
        show lastPos (0 :: zeroPrefix xs n) = some L
        unfold lastPos
        rw [ih n j hxs (by omega), hLj]

lemma getD_set_self {α : Type} (d : α) (t : List α) (i : Nat) (x : α)
    (h : i < t.length) : (t.set i x).getD i d = x := by
  induction t generalizing i with
  | nil => simp at h
  | cons a t ih =>
    cases i with
    | zero => rfl
    | succ i =>
      show (a :: t.set i x).getD (i + 1) d = x
      rw [List.getD_cons_succ]
      exact ih i (by simpa using h)

lemma getD_set_ne {α : Type} (d : α) (t : List α) (i j : Nat) (x : α) (h : j ≠ i) :
    (t.set i x).getD j d = t.getD j d := by
  induction t generalizing i j with
  | nil => simp
  | cons a t ih =>
    cases i with
    | zero =>
      cases j with
      | zero => exact absurd rfl h
      | succ j => rfl
    | succ i =>
      cases j with
      | zero => rfl
      | succ j =>
        show (a :: t.set i x).getD (j + 1) d = (a :: t).getD (j + 1) d
        rw [List.getD_cons_succ, List.getD_cons_succ]
        exact ih i j (by omega)

lemma activeStep_true_none (t : List (List Nat)) (ang act : Nat)
    (hL : lastPos (t.getD 0 []) = none) : activeStep true t ang act = .ok t := by
  unfold activeStep
  rw [if_neg (by simp), hL]

/-- Inversion of a successful `is_active = true` step when the s column is
non-empty: either the freeze level is non-positive (no-op) or the column's
prefix below `L + 1 - act` is zeroed. -/
lemma activeStep_true_some (t t' : List (List Nat)) (ang act L : Nat)
    (hL : lastPos (t.getD 0 []) = some L)
    (h : activeStep true t ang act = .ok t') :
    (L + 1 ≤ act ∧ t' = t) ∨
    (act ≤ L ∧ t' = t.set ang (zeroPrefix (t.getD ang []) (L + 1 - act))) := by
  unfold activeStep at h
  rw [if_neg (by simp)] at h
  simp only [hL] at h
  by_cases hc : L + 1 ≤ act
  · rw [if_pos hc] at h
    exact Or.inl ⟨hc, ((Except.ok.injEq _ _).mp h).symm⟩
  · rw [if_neg hc] at h
    split at h
    · exact absurd h (by simp)
    · exact Or.inr ⟨by omega, ((Except.ok.injEq _ _).mp h).symm⟩

lemma activeLoop_true_none (ps : List (Nat × Nat)) (t t' : List (List Nat))
    (hL : lastPos (t.getD 0 []) = none)
    (h : activeLoop true t ps = .ok t') : t' = t := by
  induction ps generalizing t with
  | nil =>
    simp only [activeLoop] at h
    exact ((Except.ok.injEq _ _).mp h).symm
  | cons p rest ih =>
    obtain ⟨ang, act⟩ := p
    simp only [activeLoop] at h
    rw [activeStep_true_none t ang act hL, bindOk] at h
    exact ih t hL h

/-- Behaviour of the `is_active = true` loop over columns other than the
s column: each listed column is cut at `L + 1 - act` (computed from the s
column's unchanging highest non-empty level `L`), and unlisted columns are
untouched. -/
lemma activeLoop_true_char (ps : List (Nat × Nat)) (t t' : List (List Nat)) (L : Nat)
    (hL : lastPos (t.getD 0 []) = some L)
    (hz : ∀ p ∈ ps, p.1 ≠ 0)
    (hnd : ps.Pairwise (fun p q => p.1 ≠ q.1))
    (h : activeLoop true t ps = .ok t') :
    (∀ j, (∀ p ∈ ps, p.1 ≠ j) → t'.getD j [] = t.getD j []) ∧
    (∀ p ∈ ps, t'.getD p.1 [] =
      if L + 1 ≤ p.2 then t.getD p.1 []
      else zeroPrefix (t.getD p.1 []) (L + 1 - p.2)) := by
  induction ps generalizing t with
  | nil =>
    simp only [activeLoop] at h
    obtain rfl : t = t' := (Except.ok.injEq _ _).mp h
    exact ⟨fun _ _ => rfl, fun p hp => absurd hp (List.not_mem_nil p)⟩
  | cons p rest ih =>
    obtain ⟨ang, act⟩ := p
    simp only [activeLoop] at h
    cases hs : activeStep true t ang act with
    | error e0 =>
      rw [hs] at h
      exact Except.noConfusion (show Except.error e0 = Except.ok t' from h)
    | ok t1 =>
      rw [hs, bindOk] at h
      have hang : ang ≠ 0 := hz (ang, act) (List.mem_cons_self _ _)
      have hstep := activeStep_true_some t t1 ang act L hL hs
      have hcol0 : t1.getD 0 [] = t.getD 0 [] := by
        rcases hstep with ⟨_, rfl⟩ | ⟨_, rfl⟩
        · rfl
        · exact getD_set_ne [] t ang 0 _ (by omega)
      have hL1 : lastPos (t1.getD 0 []) = some L := by rw [hcol0]; exact hL
      have hzr : ∀ p ∈ rest, p.1 ≠ 0 := fun p hp => hz p (List.mem_cons_of_mem _ hp)
      have hrest_ne : ∀ q ∈ rest, (ang, act).1 ≠ q.1 := (List.pairwise_cons.mp hnd).1
      constructor
      · intro j hj
        have hjr : ∀ p ∈ rest, p.1 ≠ j := fun p hp => hj p (List.mem_cons_of_mem _ hp)
        rw [(ih t1 hL1 hzr (List.pairwise_cons.mp hnd).2 h).1 j hjr]
        have hja : ang ≠ j := hj (ang, act) (List.mem_cons_self _ _)
        rcases hstep with ⟨_, rfl⟩ | ⟨_, rfl⟩
        · rfl
        · exact getD_set_ne [] t ang j _ (fun he => hja he.symm)
      · intro q hq
        rcases List.mem_cons.mp hq with rfl | hqr
        · have hrna : ∀ p ∈ rest, p.1 ≠ ang := fun p hp he =>
            hrest_ne p hp he.symm
          rw [(ih t1 hL1 hzr (List.pairwise_cons.mp hnd).2 h).1 ang hrna]
          show t1.getD ang [] =
            if L + 1 ≤ act then t.getD ang []
            else zeroPrefix (t.getD ang []) (L + 1 - act)
          rcases hstep with ⟨hle, rfl⟩ | ⟨hgt, rfl⟩
          · rw [if_pos hle]
          · rw [if_neg (by omega)]
            by_cases hlen : ang < t.length
            · exact getD_set_self [] t ang _ hlen
            · rw [List.set_eq_of_length_le (by omega),
                List.getD_eq_default _ _ (by omega), zeroPrefix_nil]
        · rw [(ih t1 hL1 hzr (List.pairwise_cons.mp hnd).2 h).2 q hqr]
          have hq1 : q.1 ≠ ang := fun he => hrest_ne q hqr he.symm
          rcases hstep with ⟨_, rfl⟩ | ⟨_, rfl⟩
          · rfl
          · rw [getD_set_ne [] t ang q.1 _ hq1]

/-- C3 as amended: for every element 0–118 and every non-negative
per-column level vector with `is_active = true`, `get_active_table`
computes every column's cut point from the FIRST (s) column's occupancy —
`cut = (highest nonempty level of column 0) − N + 1` — and zeroes that
column's levels below the cut (stated here in the equivalent form
"cell `(r, ang)` is zeroed iff `r + N ≤ L`"); when the s column is empty
no column is modified. The s-level count must be at least 1 (otherwise the
s column itself is emptied first, changing what the later iterations read). -/
theorem active_table_cut_from_s_column (e a b c d : Nat) (t0 t : List (List Nat))
    (ha : 1 ≤ a)
    (h0 : get_configuration_table e = .ok t0)
    (ht : get_active_table e [a, b, c, d] true = .ok t) :
    ∀ ang r, ang < 4 →
      tableGet t r ang =
        match lastPos (t0.getD 0 []) with
        | none => tableGet t0 r ang
        | some L =>
          if r + [a, b, c, d].getD ang 0 ≤ L then 0 else tableGet t0 r ang := by
  unfold get_active_table at ht
  rw [h0, bindOk, if_neg (by simp [MAX_ANG]),
    show ([a, b, c, d] : List Nat).enum = [(0, a), (1, b), (2, c), (3, d)] from rfl] at ht
  cases hL : lastPos (t0.getD 0 []) with
  | none =>
    have hid := activeLoop_true_none _ _ _ hL ht
    intro ang r hang
    simp only [hL]
    rw [hid]
  | some L =>
    simp only [activeLoop] at ht
    cases hs0 : activeStep true t0 0 a with
    | error e0 =>
      rw [hs0] at ht
      exact Except.noConfusion (show Except.error e0 = Except.ok t from ht)
    | ok t1 =>
      rw [hs0, bindOk] at ht
      have hstep0 := activeStep_true_some t0 t1 0 a L hL hs0
      have hlen0 : 0 < t0.length := by
        rcases t0 with _ | ⟨c0, rest⟩
        · simp [lastPos] at hL
        · simp
      have hother : ∀ j, j ≠ 0 → t1.getD j [] = t0.getD j [] := by
        intro j hj
        rcases hstep0 with ⟨_, rfl⟩ | ⟨_, rfl⟩
        · rfl
        · exact getD_set_ne [] t0 0 j _ hj
      have hcol0 : t1.getD 0 [] =
          if L + 1 ≤ a then t0.getD 0 []
          else zeroPrefix (t0.getD 0 []) (L + 1 - a) := by
        rcases hstep0 with ⟨hle, rfl⟩ | ⟨hgt, rfl⟩
        · rw [if_pos hle]
        · rw [if_neg (by omega)]
          exact getD_set_self [] t0 0 _ hlen0
      have hL1 : lastPos (t1.getD 0 []) = some L := by
        rw [hcol0]
        by_cases hle : L + 1 ≤ a
        · rw [if_pos hle]
          exact hL
        · rw [if_neg hle]
          exact lastPos_zeroPrefix _ _ _ hL (by omega)
      have hloop := activeLoop_true_char [(1, b), (2, c), (3, d)] t1 t L hL1
        (by intro p hp; fin_cases hp <;> simp)
        (by norm_num [List.pairwise_cons]) ht
      intro ang r hang
      simp only [hL]
      interval_cases ang
      · have hct : t.getD 0 [] = t1.getD 0 [] :=
          hloop.1 0 (by intro p hp; fin_cases hp <;> simp)
        simp only [tableGet, List.getD_cons_zero]
        rw [hct, hcol0]
        by_cases hle : L + 1 ≤ a
        · rw [if_pos hle, if_neg (by omega)]
        · rw [if_neg hle, zeroPrefix_getD]
          split_ifs <;> first | rfl | omega
      · have hct : t.getD 1 [] =
            if L + 1 ≤ b then t1.getD 1 []
            else zeroPrefix (t1.getD 1 []) (L + 1 - b) := hloop.2 (1, b) (by simp)
        simp only [tableGet, List.getD_cons_succ, List.getD_cons_zero]
        rw [hct, hother 1 (by omega)]
        by_cases hle : L + 1 ≤ b
        · rw [if_pos hle, if_neg (by omega)]
        · rw [if_neg hle, zeroPrefix_getD]
          split_ifs <;> first | rfl | omega
      · have hct : t.getD 2 [] =
            if L + 1 ≤ c then t1.getD 2 []
            else zeroPrefix (t1.getD 2 []) (L + 1 - c) := hloop.2 (2, c) (by simp)
        simp only [tableGet, List.getD_cons_succ, List.getD_cons_zero]
        rw [hct, hother 2 (by omega)]
        by_cases hle : L + 1 ≤ c
        · rw [if_pos hle, if_neg (by omega)]
        · rw [if_neg hle, zeroPrefix_getD]
          split_ifs <;> first | rfl | omega
      · have hct : t.getD 3 [] =
            if L + 1 ≤ d then t1.getD 3 []
            else zeroPrefix (t1.getD 3 []) (L + 1 - d) := hloop.2 (3, d) (by simp)
        simp only [tableGet, List.getD_cons_succ, List.getD_cons_zero]
        rw [hct, hother 3 (by omega)]
        by_cases hle : L + 1 ≤ d
        · rw [if_pos hle, if_neg (by omega)]
        · rw [if_neg hle, zeroPrefix_getD]
          split_ifs <;> first | rfl | omega

/-- Witness for C3's amended statement at Zn (element 30), levels
`[4, 3, 1, 0]`: the d column is cut from the s column's highest non-empty
level 3, so cell `(2, 2)` (the 3d shell) is zeroed. -/
theorem active_table_cut_from_s_column_witness :
    tableGet [[2, 2, 2, 2, 0, 0, 0], [0, 6, 6, 0, 0, 0, 0],
      [0, 0, 0, 0, 0, 0, 0], [0, 0, 0, 0, 0, 0, 0]] 2 2 = 0 :=
  active_table_cut_from_s_column 30 4 3 1 0
    [[2, 2, 2, 2, 0, 0, 0], [0, 6, 6, 0, 0, 0, 0],
     [0, 0, 10, 0, 0, 0, 0], [0, 0, 0, 0, 0, 0, 0]]
    [[2, 2, 2, 2, 0, 0, 0], [0, 6, 6, 0, 0, 0, 0],
     [0, 0, 0, 0, 0, 0, 0], [0, 0, 0, 0, 0, 0, 0]]
    (by decide) (by decide) (by decide) 2 2 (by decide)

end FrozenCore
